import Mathlib

/-!
# Verification of the quizly quiz-generation pipeline

A shallow embedding of the quiz-generation core of the repository
(`quizzes/functions.py` and the create-quiz view of `quizzes/api/views.py`)
together with proofs of the specified properties.

Python strings are modelled as lists of characters (`PyStr`); Python dicts
(as produced by `json.loads`) are modelled as association lists with
insertion-order semantics, mirroring CPython's ordered dicts.  External
collaborators (yt-dlp's `extract_info`, the Whisper model, the Gemini HTTP
client, `json.loads`) are oracle parameters; everything written in the
repository itself is translated line by line.
-/

/-- Python `str`, modelled as its sequence of characters. -/
abbrev PyStr := List Char

/-- JSON-like values as produced by `json.loads`: the payloads the pipeline
manipulates.  An `obj` is an insertion-ordered association list, matching
CPython dict semantics. -/
inductive JValue where
  | str (s : PyStr)
  | num (n : Int)
  | bool (b : Bool)
  | null
  | arr (xs : List JValue)
  | obj (fields : List (String × JValue))

/-- A Python exception: its class name and its `str(e)` message. -/
structure PyErr where
  kind : String
  message : PyStr
deriving DecidableEq

/-! ## Python dict primitives (CPython ordered-dict semantics) -/

/-- Lookup `d[k]`: first (and in a real dict only) binding of `k`. -/
def dictGet (d : List (String × JValue)) (k : String) : Option JValue :=
  match d with
  | [] => none
  | (k', v) :: rest => if k' = k then some v else dictGet rest k

/-- Membership test `k in d`. -/
def dictHasKey (d : List (String × JValue)) (k : String) : Bool :=
  match d with
  | [] => false
  | (k', _) :: rest => k' = k || dictHasKey rest k

/-- Removal `d.pop(k)`: the removed value (if any) and the remaining dict. -/
def dictPop (d : List (String × JValue)) (k : String) :
    Option JValue × List (String × JValue) :=
  match d with
  | [] => (none, [])
  | (k', v) :: rest =>
      if k' = k then (some v, rest)
      else
        let r := dictPop rest k
        (r.1, (k', v) :: r.2)

/-- Assignment `d[k] = v`: replace in place when the key exists, else append
(CPython keeps insertion order on overwrite and appends new keys). -/
def dictSet (d : List (String × JValue)) (k : String) (v : JValue) :
    List (String × JValue) :=
  match d with
  | [] => [(k, v)]
  | (k', v') :: rest =>
      if k' = k then (k, v) :: rest else (k', v') :: dictSet rest k v

/-- Keys of a real Python dict are pairwise distinct. -/
def nodupKeys (d : List (String × JValue)) : Bool :=
  match d with
  | [] => true
  | (k, _) :: rest => !(dictHasKey rest k) && nodupKeys rest

/-! ## Response fence stripping (`clean_json_response`) -/

/-- The characters Python's `str.strip()` removes (the ASCII whitespace
class; the transcript pipeline never produces the additional Unicode
space characters Python also strips). -/
def pyIsSpace (c : Char) : Bool :=
  c = ' ' || c = '\t' || c = '\n' || c = '\r' || c = '\x0b' || c = '\x0c'

/-- Python `s.strip()`. -/
def pyStrip (s : PyStr) : PyStr :=
  ((s.dropWhile pyIsSpace).reverse.dropWhile pyIsSpace).reverse

/-- Python `s.endswith(t)`. -/
def pyEndsWith (s t : PyStr) : Bool :=
  t.reverse.isPrefixOf s.reverse

/-- Python `s[:-n]` for `n ≤ len(s)`. -/
def pyDropRight (s : PyStr) (n : Nat) : PyStr :=
  (s.reverse.drop n).reverse

/-- Function `clean_json_response(response_text)` from `quizzes/functions.py`:
strip, drop a leading ````` ```json ````` (7 chars) or ````` ``` `````
(3 chars), drop a trailing ````` ``` `````, strip again. -/
def clean_json_response (response_text : PyStr) : PyStr :=
  let text := pyStrip response_text
  let text := if ("```json".data).isPrefixOf text then text.drop 7 else text
  let text := if ("```".data).isPrefixOf text then text.drop 3 else text
  let text := if pyEndsWith text ("```".data) then pyDropRight text 3 else text
  pyStrip text

/-! ## Prompt builder (`get_prompt_*`, `build_gemini_prompt`) -/

/-- Escaping of one character inside a JSON string literal, as
`json.dumps` performs it.  (The strings in this repository's prompt
structure contain none of the escaped characters; other control
characters, which Python would render as a unicode escape, do not occur
in JSON-loadable payloads produced here.) -/
def jsonEscapeChar (c : Char) : PyStr :=
  if c = '"' then ['\\', '"']
  else if c = '\\' then ['\\', '\\']
  else if c = '\n' then ['\\', 'n']
  else if c = '\t' then ['\\', 't']
  else if c = '\r' then ['\\', 'r']
  else [c]

/-- A JSON string literal: quoted and escaped. -/
def jsonQuote (s : PyStr) : PyStr :=
  '"' :: (s.map jsonEscapeChar).flatten ++ ['"']

/-- Indentation of `n` spaces. -/
def indentSpaces (n : Nat) : PyStr :=
  List.replicate n ' '

mutual

/-- Rendering `json.dumps(v, indent=2)` at nesting depth `level` (with `indent`,
Python uses separators `","` + newline-and-indent and `": "`). -/
def dumpsVal (level : Nat) (v : JValue) : PyStr :=
  match v with
  | .str s => jsonQuote s
  | .num n => (toString n).data
  | .bool b => if b then "true".data else "false".data
  | .null => "null".data
  | .arr [] => "[]".data
  | .arr (x :: rest) =>
      ('[' :: '\n' :: indentSpaces (2 * (level + 1))) ++ dumpsVal (level + 1) x
        ++ dumpsArrRest (level + 1) rest ++ ('\n' :: indentSpaces (2 * level)) ++ [']']
  | .obj [] => "\x7b\x7d".data
  | .obj (f :: rest) =>
      ('\x7b' :: '\n' :: indentSpaces (2 * (level + 1))) ++ jsonQuote f.1.data
        ++ (':' :: ' ' :: dumpsVal (level + 1) f.2)
        ++ dumpsObjRest (level + 1) rest ++ ('\n' :: indentSpaces (2 * level)) ++ ['\x7d']

/-- Remaining array items, each preceded by `",\n" + indent`. -/
def dumpsArrRest (level : Nat) (xs : List JValue) : PyStr :=
  match xs with
  | [] => []
  | x :: rest =>
      (',' :: '\n' :: indentSpaces (2 * level)) ++ dumpsVal level x ++ dumpsArrRest level rest

/-- Remaining object entries, each preceded by `",\n" + indent`. -/
def dumpsObjRest (level : Nat) (fs : List (String × JValue)) : PyStr :=
  match fs with
  | [] => []
  | f :: rest =>
      (',' :: '\n' :: indentSpaces (2 * level)) ++ jsonQuote f.1.data
        ++ (':' :: ' ' :: dumpsVal level f.2) ++ dumpsObjRest level rest

end

/-- Function `get_prompt_header()`: the adjacent string literals of the source,
concatenated. -/
def get_prompt_header : PyStr :=
  ("Based on the following transcript, generate a quiz in valid JSON format.\n\nThe quiz must follow this exact structure:").data

/-- Function `get_quiz_structure_dict()`. -/
def get_quiz_structure_dict : JValue :=
  .obj [
    ("title", .str ("Create a concise quiz title based on the topic of the transcript.").data),
    ("description", .str ("Summarize the transcript in no more than 150 characters.").data),
    ("questions", .arr [
      .obj [
        ("question_title", .str ("The question goes here.").data),
        ("question_options", .arr [
          .str "Option A".data, .str "Option B".data,
          .str "Option C".data, .str "Option D".data]),
        ("answer", .str ("The correct answer from the above options").data)]])]

/-- Function `get_prompt_structure()`: `json.dumps(structure, indent=2)` plus the
fixed ellipsis tail. -/
def get_prompt_structure : PyStr :=
  dumpsVal 0 get_quiz_structure_dict ++ ("\n    ...\n    (exactly 10 questions)").data

/-- Function `get_prompt_requirements()`: the triple-quoted requirements block
(leading newline included, no trailing newline). -/
def get_prompt_requirements : PyStr :=
  ("\nRequirements:\n- Each question must have exactly 4 distinct answer options.\n- Only one correct answer is allowed per question, and it must be\n  present in \x27question_options\x27.\n- The output must be valid JSON and parsable as-is\n  (e.g., using Python\x27s json.loads).\n- Do not include explanations, comments, or any text outside the\n  JSON.").data

/-- Function `build_gemini_prompt(transcript)`: the f-string
`f"{header}\n\n{structure}\n{requirements}\n\nTranscript:\n{transcript}"`. -/
def build_gemini_prompt (transcript : PyStr) : PyStr :=
  get_prompt_header ++ "\n\n".data ++ get_prompt_structure ++ "\n".data
    ++ get_prompt_requirements ++ "\n\nTranscript:\n".data ++ transcript

/-! ## Response normalizer (`normalize_question_keys`) -/

/-- Substring test: Python `pat in s` for strings. -/
def containsSub (s pat : PyStr) : Bool :=
  pat.isPrefixOf s ||
    match s with
    | [] => false
    | _ :: rest => containsSub rest pat

/-- One JSON value compared (Python `==`) against the string `k`. -/
def isStrEq (k : String) (x : JValue) : Bool :=
  match x with
  | .str s => s = k.data
  | _ => false

/-- Python `k in v` for the JSON value shapes `json.loads` can return:
key test for dicts, substring test for strings, element test for lists,
`TypeError` otherwise. -/
def pyContains (k : String) (v : JValue) : Except PyErr Bool :=
  match v with
  | .obj d => .ok (dictHasKey d k)
  | .str s => .ok (containsSub s k.data)
  | .arr xs => .ok (xs.any (isStrEq k))
  | _ => .error ⟨"TypeError", ("argument of type is not iterable").data⟩

/-- Loop body `if old in question: question[new] = question.pop(old)`.
On a non-dict whose containment test succeeded, Python raises
(`AttributeError` on `str.pop`, `TypeError` on `list.pop(str)`); both are
modelled as a single raised error. -/
def renameKeyPy (q : JValue) (old new : String) : Except PyErr JValue :=
  match pyContains old q with
  | .error e => .error e
  | .ok false => .ok q
  | .ok true =>
      match q with
      | .obj d =>
          let r := dictPop d old
          match r.1 with
          | some v => .ok (.obj (dictSet r.2 new v))
          | none => .ok (.obj r.2)
      | _ => .error ⟨"TypeError", ("pop with a key is only supported on dicts").data⟩

/-- Both renames of the loop body, in source order. -/
def normalizeQuestion (q : JValue) : Except PyErr JValue :=
  match renameKeyPy q "question_title" "question" with
  | .error e => .error e
  | .ok q1 => renameKeyPy q1 "question_options" "options"

/-- Iteration `for question in ...` over a list of questions; the first
raised error aborts the whole call. -/
def normalizeAll (qs : List JValue) : Except PyErr (List JValue) :=
  match qs with
  | [] => .ok []
  | q :: rest =>
      match normalizeQuestion q with
      | .error e => .error e
      | .ok q' =>
          match normalizeAll rest with
          | .error e => .error e
          | .ok rest' => .ok (q' :: rest')

/-- Function `normalize_question_keys(quiz_data)`.  Iterating a string yields its
one-character substrings, which can never contain the 14-character key
names, so the loop body never fires; iterating a dict yields its keys,
where a key containing one of the key names as a substring makes the body
raise on `str.pop`; iterating a number/bool/None raises `TypeError`;
calling `.get` on a non-dict raises `AttributeError`. -/
def normalize_question_keys (quiz_data : JValue) : Except PyErr JValue :=
  match quiz_data with
  | .obj d =>
      match dictGet d "questions" with
      | none => .ok quiz_data
      | some (.arr qs) =>
          match normalizeAll qs with
          | .error e => .error e
          | .ok qs' => .ok (.obj (dictSet d "questions" (.arr qs')))
      | some (.str _) => .ok quiz_data
      | some (.obj d') =>
          if d'.any (fun f => containsSub f.1.data ("question_title").data
              || containsSub f.1.data ("question_options").data) then
            .error ⟨"AttributeError", ("str object has no attribute pop").data⟩
          else .ok quiz_data
      | some _ => .error ⟨"TypeError", ("object is not iterable").data⟩
  | _ => .error ⟨"AttributeError", ("object has no attribute get").data⟩

/-! ## Media fetcher (`get_youtube_download_opts`, `download_youtube_audio`) -/

/-- The yt-dlp option dict built by `get_youtube_download_opts` (the
`logger: None` entry carries no information and is omitted). -/
structure YdlOpts where
  format : PyStr
  outtmpl : PyStr
  quiet : Bool
  noplaylist : Bool
  no_warnings : Bool
  noprogress : Bool
  no_color : Bool

/-- Function `get_youtube_download_opts(output_path)`. -/
def get_youtube_download_opts (output_path : PyStr) : YdlOpts :=
  { format := "bestaudio/best".data
    outtmpl := output_path
    quiet := true
    noplaylist := true
    no_warnings := true
    noprogress := true
    no_color := true }

/-- The metadata of an extracted video that the output template uses. -/
structure VideoInfo where
  id : PyStr
  ext : PyStr

/-- Modelled from the library: yt-dlp's `prepare_filename` instantiates
the output template by a single left-to-right `%`-formatting pass,
replacing each `%(id)s` with the video id and each `%(ext)s` with the
extension (replaced text is not rescanned). -/
def pyPercentFormat (info : VideoInfo) : PyStr → PyStr
  | [] => []
  | c :: rest =>
      if ("%(id)s".data).isPrefixOf (c :: rest) then
        info.id ++ pyPercentFormat info ((c :: rest).drop 6)
      else if ("%(ext)s".data).isPrefixOf (c :: rest) then
        info.ext ++ pyPercentFormat info ((c :: rest).drop 7)
      else
        c :: pyPercentFormat info rest
termination_by s => s.length
decreasing_by
  · simp only [List.length_drop, List.length_cons]; omega
  · simp only [List.length_drop, List.length_cons]; omega
  · simp only [List.length_cons]; omega

/-- Call `ydl.prepare_filename(info)` under the configured options. -/
def prepare_filename (opts : YdlOpts) (info : VideoInfo) : PyStr :=
  pyPercentFormat info opts.outtmpl

/-- Function `download_youtube_audio(url)`.  `settings.MEDIA_ROOT` is the
configured storage root; `extract_info` is the yt-dlp download oracle
(any download error it raises propagates).  The `mkdir` side effect
touches no state this model observes. -/
def download_youtube_audio (mediaRoot : PyStr)
    (extract_info : PyStr → Except PyErr VideoInfo) (url : PyStr) :
    Except PyErr PyStr :=
  let output_dir := mediaRoot ++ "/temp_audio".data
  let output_path := output_dir ++ "/%(id)s.%(ext)s".data
  let ydl_opts := get_youtube_download_opts output_path
  match extract_info url with
  | .error e => .error e
  | .ok info => .ok (prepare_filename ydl_opts info)

/-! ## Transcriber (`cleanup_audio_file`, `transcribe_audio`) -/

/-- The observable filesystem state: the set of existing files, plus the
log of `os.remove` calls made so far (to count deletions). -/
structure Fs where
  files : List PyStr
  removeLog : List PyStr

/-- Call `os.path.exists(p)`. -/
def os_path_exists (fs : Fs) (p : PyStr) : Bool :=
  fs.files.contains p

/-- Call `os.remove(p)`: the file is gone and the call is logged. -/
def os_remove (fs : Fs) (p : PyStr) : Fs :=
  ⟨fs.files.filter (fun q => q != p), fs.removeLog ++ [p]⟩

/-- Function `cleanup_audio_file(audio_file_path)`. -/
def cleanup_audio_file (fs : Fs) (audio_file_path : PyStr) : Fs :=
  if os_path_exists fs audio_file_path then os_remove fs audio_file_path else fs

/-- Function `transcribe_audio(audio_file_path)`.  `whisperTranscribe` is the
oracle for `WHISPER_MODEL.transcribe(path)["text"]` (the model call
followed by the `"text"` field read; an error in either raises).  The
`finally` block runs `cleanup_audio_file` on both exits. -/
def transcribe_audio (whisperTranscribe : PyStr → Except PyErr PyStr)
    (fs : Fs) (audio_file_path : PyStr) : Except PyErr PyStr × Fs :=
  match whisperTranscribe audio_file_path with
  | .ok transcript => (.ok transcript, cleanup_audio_file fs audio_file_path)
  | .error e => (.error e, cleanup_audio_file fs audio_file_path)

/-! ## AI client (`generate_quiz_with_gemini`) -/

/-- Observable outbound effects of the AI stage. -/
inductive AiEvent where
  | networkCall (prompt : PyStr)
deriving DecidableEq

/-- Python truthiness of the configured credential: absent (`None`) and
the empty string are both falsy. -/
def pyTruthy (s : Option PyStr) : Bool :=
  match s with
  | none => false
  | some s => !s.isEmpty

/-- Function `generate_quiz_with_gemini(transcript)`.  `gemini_api_key` is
`settings.GEMINI_API_KEY`; `api` is the oracle for `call_gemini_api`
(the genai client call, returning `response.text`); `jsonLoads` is the
oracle for the stdlib `json.loads`.  The second component is the trace
of network calls performed. -/
def generate_quiz_with_gemini (gemini_api_key : Option PyStr)
    (api : PyStr → Except PyErr PyStr) (jsonLoads : PyStr → Except PyErr JValue)
    (transcript : PyStr) : Except PyErr JValue × List AiEvent :=
  if !(pyTruthy gemini_api_key) then
    (.error ⟨"ValueError", "GEMINI_API_KEY is not set".data⟩, [])
  else
    let prompt := build_gemini_prompt transcript
    match api prompt with
    | .error e => (.error e, [.networkCall prompt])
    | .ok response_text =>
        let cleaned_text := clean_json_response response_text
        match jsonLoads cleaned_text with
        | .error e => (.error e, [.networkCall prompt])
        | .ok quiz_data =>
            match normalize_question_keys quiz_data with
            | .error e => (.error e, [.networkCall prompt])
            | .ok q => (.ok q, [.networkCall prompt])

/-! ## Pipeline orchestrator (`create_quiz_from_url`) and the HTTP view -/

/-- One invocation of a pipeline stage, in the orchestrator's trace. -/
inductive StageEvent where
  | fetch (url : PyStr)
  | transcribe (path : PyStr)
  | generate (transcript : PyStr)
deriving DecidableEq

/-- The three stage functions the orchestrator calls, as oracles (the
spec's mocked-stage level: each stage either returns a value or
raises). -/
structure Stages where
  fetchF : PyStr → Except PyErr PyStr
  transcribeF : PyStr → Except PyErr PyStr
  generateF : PyStr → Except PyErr JValue

/-- Function `create_quiz_from_url(url, user)`: the three stage calls in source
order; the first raised error aborts and propagates.  `user` is accepted
and never used, as in the source.  The second component is the trace of
stage calls performed. -/
def create_quiz_from_url (st : Stages) (url : PyStr) (user : PyStr) :
    Except PyErr JValue × List StageEvent :=
  match st.fetchF url with
  | .error e => (.error e, [.fetch url])
  | .ok audio_file =>
      match st.transcribeF audio_file with
      | .error e => (.error e, [.fetch url, .transcribe audio_file])
      | .ok transcript =>
          match st.generateF transcript with
          | .error e =>
              (.error e, [.fetch url, .transcribe audio_file, .generate transcript])
          | .ok quiz_data =>
              (.ok quiz_data, [.fetch url, .transcribe audio_file, .generate transcript])

/-- An HTTP response of the view layer: status code and JSON body. -/
structure HttpResponse where
  statusCode : Nat
  body : JValue

/-- Function `process_quiz_creation(serializer, user)` from `api/views.py`:
run the pipeline, persist via `create_quiz_in_db` + `QuizSerializer`
(external ORM collaborators, modelled by the `persist` oracle), answer
201 with the serialized quiz.  Any raised error propagates. -/
def process_quiz_creation (st : Stages) (persist : JValue → PyStr → Except PyErr JValue)
    (url : PyStr) (user : PyStr) : Except PyErr HttpResponse :=
  match (create_quiz_from_url st url user).1 with
  | .error e => .error e
  | .ok quiz_data =>
      match persist quiz_data url with
      | .error e => .error e
      | .ok quiz => .ok ⟨201, quiz⟩

/-- Function `create_quiz_view(request)`: serializer validation (its outcome and
error body are inputs here), then `process_quiz_creation` inside
`try/except Exception`, the handler answering 500 with
`detail: "Error creating quiz: " + str(e)`. -/
def create_quiz_view (st : Stages) (persist : JValue → PyStr → Except PyErr JValue)
    (valid : Bool) (validationErrors : JValue) (url : PyStr) (user : PyStr) :
    HttpResponse :=
  if valid then
    match process_quiz_creation st persist url user with
    | .ok resp => resp
    | .error e => ⟨500, .obj [("detail", .str ("Error creating quiz: ".data ++ e.message))]⟩
  else ⟨400, validationErrors⟩

/-! ## Well-formedness of payloads (real Python dicts have unique keys) -/

/-- A question object, as a Python value, has pairwise-distinct keys
(non-dict values carry no key constraint). -/
def questionKeysNodup (q : JValue) : Bool :=
  match q with
  | .obj d => nodupKeys d
  | _ => true

/-- Every question object of the payload's `questions` list has
pairwise-distinct keys — true of anything `json.loads` can return. -/
def quizQuestionsWF (q : JValue) : Bool :=
  match q with
  | .obj d =>
      match dictGet d "questions" with
      | some (.arr qs) => qs.all questionKeysNodup
      | _ => true
  | _ => true

/-- A question object already using the persistence-facing key names:
an object with neither `question_title` nor `question_options`. -/
def usesPersistenceKeys (q : JValue) : Bool :=
  match q with
  | .obj d => !(dictHasKey d "question_title") && !(dictHasKey d "question_options")
  | _ => false

/-! ## Helper lemmas -/

theorem isPrefixOf_append_of (p s t : PyStr) (h : p.isPrefixOf s = true) :
    p.isPrefixOf (s ++ t) = true := by
  induction p generalizing s with
  | nil => cases s ++ t <;> rfl
  | cons a p' ih =>
      cases s with
      | nil => exact absurd h (by simp [List.isPrefixOf])
      | cons b s' =>
          simp only [List.isPrefixOf, List.cons_append, Bool.and_eq_true] at h ⊢
          exact ⟨h.1, ih s' h.2⟩

theorem isPrefixOf_append_self (p t : PyStr) : p.isPrefixOf (p ++ t) = true := by
  induction p with
  | nil => simp [List.isPrefixOf]
  | cons a p' ih => simp [List.isPrefixOf, ih]

theorem containsSub_append_left (s t pat : PyStr) (h : containsSub s pat = true) :
    containsSub (s ++ t) pat = true := by
  induction s with
  | nil =>
      have hp : pat = [] := by
        cases pat with
        | nil => rfl
        | cons a q => simp [containsSub, List.isPrefixOf] at h
      subst hp
      cases t with
      | nil => rfl
      | cons c t' => simp [containsSub, List.isPrefixOf]
  | cons c s' ih =>
      simp only [containsSub, Bool.or_eq_true] at h ⊢
      rcases h with h | h
      · exact Or.inl (isPrefixOf_append_of _ _ _ h)
      · exact Or.inr (ih h)

theorem containsSub_append_right (s t pat : PyStr) (h : containsSub t pat = true) :
    containsSub (s ++ t) pat = true := by
  induction s with
  | nil => simpa using h
  | cons c s' ih =>
      simp only [containsSub, Bool.or_eq_true]
      exact Or.inr ih

theorem dropWhile_head_false (p : Char → Bool) (a : Char) (l : PyStr)
    (h : List.dropWhile p (a :: l) = a :: l) : p a = false := by
  by_cases hp : p a
  · rw [List.dropWhile_cons_of_pos hp] at h
    have hle := (List.dropWhile_sublist (l := l) p).length_le
    rw [h] at hle
    simp at hle
  · simpa using hp

theorem pyStrip_parts (S : PyStr) (h : pyStrip S = S) :
    S.dropWhile pyIsSpace = S ∧ S.reverse.dropWhile pyIsSpace = S.reverse := by
  unfold pyStrip at h
  have h1 := (List.dropWhile_sublist (l := S) pyIsSpace).length_le
  have h2 := (List.dropWhile_sublist (l := (S.dropWhile pyIsSpace).reverse) pyIsSpace).length_le
  have hl := congrArg List.length h
  simp only [List.length_reverse] at hl h2
  have hu : (S.dropWhile pyIsSpace).length = S.length := by omega
  have hdu : S.dropWhile pyIsSpace = S := (List.dropWhile_sublist pyIsSpace).eq_of_length hu
  refine ⟨hdu, ?_⟩
  rw [hdu] at hl
  refine (List.dropWhile_sublist pyIsSpace).eq_of_length ?_
  simp only [List.length_reverse]
  exact hl

theorem pyStrip_wrap (a b : Char) (m : PyStr) (ha : pyIsSpace a = false)
    (hb : pyIsSpace b = false) : pyStrip (a :: (m ++ [b])) = a :: (m ++ [b]) := by
  unfold pyStrip
  rw [List.dropWhile_cons_of_neg (by simp [ha])]
  have hr : ((a :: (m ++ [b])) : PyStr).reverse = b :: (m.reverse ++ [a]) := by
    simp
  rw [hr, List.dropWhile_cons_of_neg (by simp [hb]), ← hr, List.reverse_reverse]

theorem contains_filter_ne (l : List PyStr) (p : PyStr) :
    (l.filter (fun q => q != p)).contains p = false := by
  induction l with
  | nil => rfl
  | cons a l' ih =>
      by_cases h : a = p
      · subst h
        simpa [List.filter_cons] using ih
      · simp only [List.filter_cons, bne_iff_ne, ne_eq, h, not_false_eq_true, if_pos,
          decide_True, List.contains_cons]
        simp only [List.contains] at ih
        simp [ih, h, Ne.symm h]

theorem isPrefixOf_cons_false (a : Char) (p x : PyStr) (c : Char) (h : c ≠ a) :
    ((a :: p).isPrefixOf (c :: x)) = false := by
  have hb : (a == c) = false := by
    simp [Ne.symm h]
  simp [List.isPrefixOf, hb]

theorem pyPercentFormat_nil (info : VideoInfo) : pyPercentFormat info [] = [] := by
  simp [pyPercentFormat]

theorem pyPercentFormat_passthrough (info : VideoInfo) (pre s : PyStr)
    (h : ∀ c ∈ pre, c ≠ '%') :
    pyPercentFormat info (pre ++ s) = pre ++ pyPercentFormat info s := by
  induction pre with
  | nil => simp
  | cons c pre' ih =>
      have hc : c ≠ '%' := h c (by simp)
      have e1 : ("%(id)s".data).isPrefixOf (c :: (pre' ++ s)) = false := by
        have hd : "%(id)s".data = '%' :: "(id)s".data := rfl
        rw [hd]
        exact isPrefixOf_cons_false _ _ _ _ hc
      have e2 : ("%(ext)s".data).isPrefixOf (c :: (pre' ++ s)) = false := by
        have hd : "%(ext)s".data = '%' :: "(ext)s".data := rfl
        rw [hd]
        exact isPrefixOf_cons_false _ _ _ _ hc
      rw [List.cons_append]
      rw [pyPercentFormat, e1, e2]
      simp only [Bool.false_eq_true, if_false, List.cons_append, List.cons.injEq, true_and]
      exact ih (fun d hd => h d (List.mem_cons_of_mem _ hd))

theorem pyPercentFormat_fire_id (info : VideoInfo) (rest : PyStr) :
    pyPercentFormat info ('%' :: ('(' :: ('i' :: ('d' :: (')' :: ('s' :: rest))))))
      = info.id ++ pyPercentFormat info rest := by
  have c1 : ("%(id)s".data).isPrefixOf ('%' :: ('(' :: ('i' :: ('d' :: (')' :: ('s' :: rest))))))
      = true := by
    have hd : "%(id)s".data = ['%', '(', 'i', 'd', ')', 's'] := rfl
    rw [hd]
    simp [List.isPrefixOf]
  rw [pyPercentFormat, c1]
  simp

theorem pyPercentFormat_fire_ext (info : VideoInfo) (rest : PyStr) :
    pyPercentFormat info ('%' :: ('(' :: ('e' :: ('x' :: ('t' :: (')' :: ('s' :: rest)))))))
      = info.ext ++ pyPercentFormat info rest := by
  have c1 : ("%(id)s".data).isPrefixOf ('%' :: ('(' :: ('e' :: ('x' :: ('t' :: (')' :: ('s' :: rest)))))))
      = false := by
    have hd : "%(id)s".data = ['%', '(', 'i', 'd', ')', 's'] := rfl
    rw [hd]
    simp [List.isPrefixOf]
  have c2 : ("%(ext)s".data).isPrefixOf ('%' :: ('(' :: ('e' :: ('x' :: ('t' :: (')' :: ('s' :: rest)))))))
      = true := by
    have hd : "%(ext)s".data = ['%', '(', 'e', 'x', 't', ')', 's'] := rfl
    rw [hd]
    simp [List.isPrefixOf]
  rw [pyPercentFormat, c1, c2]
  simp

/-! ## Claim C5 -/

/-- C5: the fence-stripping round-trip.  Applied to the raw text
`` ```json ``, newline, `{"key":"value"}`, newline, `` ``` ``,
`clean_json_response` yields exactly `{"key":"value"}`; applied to the
same inner text without fences it is the identity. -/
theorem C5_clean_json_roundtrip :
    clean_json_response ("```json\n\x7b\"key\":\"value\"\x7d\n```".data)
        = ("\x7b\"key\":\"value\"\x7d".data)
    ∧ clean_json_response ("\x7b\"key\":\"value\"\x7d".data)
        = ("\x7b\"key\":\"value\"\x7d".data) :=
  ⟨by decide, by decide⟩

/-! ## Claim C3 -/

/-- C3: with no configured credential (absent or empty, i.e. falsy),
`generate_quiz_with_gemini` raises the labelled `ValueError` and the
trace of network calls is empty — the failure happens before any prompt
is sent and before `call_gemini_api` is attempted. -/
theorem C3_missing_credential (key : Option PyStr)
    (api : PyStr → Except PyErr PyStr) (jsonLoads : PyStr → Except PyErr JValue)
    (transcript : PyStr) (h : pyTruthy key = false) :
    generate_quiz_with_gemini key api jsonLoads transcript
      = (.error ⟨"ValueError", "GEMINI_API_KEY is not set".data⟩, []) := by
  simp [generate_quiz_with_gemini, h]

/-- Witness for C3 at the absent credential. -/
theorem C3_missing_credential_witness :
    generate_quiz_with_gemini none (fun _ => .ok []) (fun _ => .ok .null)
        ("hello world".data)
      = (.error ⟨"ValueError", "GEMINI_API_KEY is not set".data⟩, []) :=
  C3_missing_credential none _ _ _ rfl

/-! ## Claim C2 -/

/-- C2: for an existing audio file, `transcribe_audio` deletes it exactly
once on every exit path — the remove log grows by exactly that one path
and the file is gone afterwards — and the outcome (transcript on
success, the raised error on failure) is exactly the model's outcome,
i.e. an exception propagates only after cleanup ran. -/
theorem C2_transcriber_cleanup (whisperTranscribe : PyStr → Except PyErr PyStr)
    (fs : Fs) (p : PyStr) (hex : os_path_exists fs p = true) :
    (transcribe_audio whisperTranscribe fs p).1 = whisperTranscribe p
    ∧ (transcribe_audio whisperTranscribe fs p).2.removeLog = fs.removeLog ++ [p]
    ∧ os_path_exists (transcribe_audio whisperTranscribe fs p).2 p = false := by
  have hclean : cleanup_audio_file fs p = os_remove fs p := by
    simp [cleanup_audio_file, hex]
  have hgone : (fs.files.filter (fun q => q != p)).contains p = false :=
    contains_filter_ne fs.files p
  cases hw : whisperTranscribe p with
  | ok t => simp [transcribe_audio, hw, hclean, os_remove, os_path_exists, hgone]
  | error e => simp [transcribe_audio, hw, hclean, os_remove, os_path_exists, hgone]

/-- Witness for C2: a one-file filesystem, once with a succeeding model
and once with a raising one. -/
theorem C2_transcriber_cleanup_witness :
    (transcribe_audio (fun _ => .ok "hi".data) ⟨["a.mp3".data], []⟩ "a.mp3".data).2.removeLog
        = [] ++ ["a.mp3".data]
    ∧ (transcribe_audio (fun _ => .error ⟨"RuntimeError", "boom".data⟩)
        ⟨["a.mp3".data], []⟩ "a.mp3".data).2.removeLog = [] ++ ["a.mp3".data] :=
  ⟨(C2_transcriber_cleanup (fun _ => .ok "hi".data) ⟨["a.mp3".data], []⟩ "a.mp3".data
      (by decide)).2.1,
   (C2_transcriber_cleanup (fun _ => .error ⟨"RuntimeError", "boom".data⟩)
      ⟨["a.mp3".data], []⟩ "a.mp3".data (by decide)).2.1⟩

/-! ## Claim C1 -/

/-- C1: happy path of the orchestrator.  With fetch returning `P`,
transcription of `P` returning `S` and AI generation on `S` returning
`Q`, `create_quiz_from_url` performs exactly the three stage calls, in
order fetch–transcribe–generate, and returns `Q` unchanged; the `user`
argument (the would-be owner) has no influence on the result, so no
owner is attached to the payload. -/
theorem C1_orchestrator_happy_path (st : Stages) (url user P S : PyStr) (Q : JValue)
    (hf : st.fetchF url = .ok P) (ht : st.transcribeF P = .ok S)
    (hg : st.generateF S = .ok Q) :
    create_quiz_from_url st url user
        = (.ok Q, [.fetch url, .transcribe P, .generate S])
    ∧ ∀ user2, create_quiz_from_url st url user2 = create_quiz_from_url st url user := by
  refine ⟨?_, fun user2 => rfl⟩
  simp [create_quiz_from_url, hf, ht, hg]

/-- Witness for C1 with concrete mocked stages. -/
theorem C1_orchestrator_happy_path_witness :
    create_quiz_from_url
        ⟨fun _ => .ok "P.mp3".data, fun _ => .ok "S".data, fun _ => .ok .null⟩
        "https://example.com/watch?v=abc".data "alice".data
      = (.ok .null, [.fetch "https://example.com/watch?v=abc".data,
          .transcribe "P.mp3".data, .generate "S".data]) :=
  (C1_orchestrator_happy_path
      ⟨fun _ => .ok "P.mp3".data, fun _ => .ok "S".data, fun _ => .ok .null⟩
      "https://example.com/watch?v=abc".data "alice".data
      "P.mp3".data "S".data .null rfl rfl rfl).1

/-! ## Claim C7 -/

/-- C7: whichever stage raises first, the orchestrator returns that very
error, unwrapped and unclassified; and the create-quiz view converts it
into a 500 response whose body is
`detail: "Error creating quiz: <message>"`. -/
theorem C7_error_propagation (st : Stages) (url user P S : PyStr) (e : PyErr)
    (h : st.fetchF url = .error e
        ∨ (st.fetchF url = .ok P ∧ st.transcribeF P = .error e)
        ∨ (st.fetchF url = .ok P ∧ st.transcribeF P = .ok S ∧ st.generateF S = .error e)) :
    (create_quiz_from_url st url user).1 = .error e
    ∧ ∀ persist verrs, create_quiz_view st persist true verrs url user
        = ⟨500, .obj [("detail", .str ("Error creating quiz: ".data ++ e.message))]⟩ := by
  have hpipe : (create_quiz_from_url st url user).1 = .error e := by
    rcases h with h | ⟨h1, h2⟩ | ⟨h1, h2, h3⟩
    · simp [create_quiz_from_url, h]
    · simp [create_quiz_from_url, h1, h2]
    · simp [create_quiz_from_url, h1, h2, h3]
  refine ⟨hpipe, fun persist verrs => ?_⟩
  simp [create_quiz_view, process_quiz_creation, hpipe]

/-- Witness for C7: the transcription stage raising. -/
theorem C7_error_propagation_witness :
    create_quiz_view
        ⟨fun _ => .ok "P.mp3".data,
         fun _ => .error ⟨"RuntimeError", "whisper failed".data⟩,
         fun _ => .ok .null⟩
        (fun q _ => .ok q) true .null "u".data "alice".data
      = ⟨500, .obj [("detail",
          .str ("Error creating quiz: ".data ++ "whisper failed".data))]⟩ :=
  (C7_error_propagation
      ⟨fun _ => .ok "P.mp3".data,
       fun _ => .error ⟨"RuntimeError", "whisper failed".data⟩,
       fun _ => .ok .null⟩
      "u".data "alice".data "P.mp3".data [] ⟨"RuntimeError", "whisper failed".data⟩
      (Or.inr (Or.inl ⟨rfl, rfl⟩))).2 (fun q _ => .ok q) .null

/-! ## Claim C6 -/

/-- C6: the prompt builder is a pure function of the transcript whose
output is a fixed prefix with the transcript appended verbatim at the
end, and the prompt contains the literal substrings "10 questions" and
"JSON format". -/
theorem C6_prompt_builder (T : PyStr) :
    build_gemini_prompt T = build_gemini_prompt [] ++ T
    ∧ containsSub (build_gemini_prompt T) ("10 questions".data) = true
    ∧ containsSub (build_gemini_prompt T) ("JSON format".data) = true := by
  refine ⟨by simp [build_gemini_prompt, List.append_assoc], ?_, ?_⟩
  · have hshape : build_gemini_prompt T
        = (get_prompt_header ++ "\n\n".data ++ dumpsVal 0 get_quiz_structure_dict)
          ++ (("\n    ...\n    (exactly 10 questions)").data
            ++ ("\n".data ++ (get_prompt_requirements
              ++ ("\n\nTranscript:\n".data ++ T)))) := by
      simp [build_gemini_prompt, get_prompt_structure, List.append_assoc]
    rw [hshape]
    exact containsSub_append_right _ _ _ (containsSub_append_left _ _ _ (by decide))
  · have hshape : build_gemini_prompt T
        = get_prompt_header ++ ("\n\n".data ++ (get_prompt_structure
            ++ ("\n".data ++ (get_prompt_requirements
              ++ ("\n\nTranscript:\n".data ++ T))))) := by
      simp [build_gemini_prompt, List.append_assoc]
    rw [hshape]
    exact containsSub_append_left _ _ _ (by decide)

/-! ## Claim C9 -/

/-- C9: the media fetcher configures the downloader with the output
template `<MEDIA_ROOT>/temp_audio/%(id)s.%(ext)s` — so the downloaded
file lands in the temporary-audio directory under the configured storage
root with the source's unique identifier as the filename stem — and the
options suppress verbose/progress output (`quiet`, `no_warnings`,
`noprogress` all set). -/
theorem C9_media_fetcher (mediaRoot : PyStr)
    (extract_info : PyStr → Except PyErr VideoInfo) (url : PyStr) (info : VideoInfo)
    (hmr : ∀ c ∈ mediaRoot, c ≠ '%') (hok : extract_info url = .ok info) :
    download_youtube_audio mediaRoot extract_info url
      = .ok (mediaRoot ++ ("/temp_audio/".data ++ (info.id ++ ('.' :: info.ext))))
    ∧ (get_youtube_download_opts
        (mediaRoot ++ "/temp_audio".data ++ "/%(id)s.%(ext)s".data)).quiet = true
    ∧ (get_youtube_download_opts
        (mediaRoot ++ "/temp_audio".data ++ "/%(id)s.%(ext)s".data)).no_warnings = true
    ∧ (get_youtube_download_opts
        (mediaRoot ++ "/temp_audio".data ++ "/%(id)s.%(ext)s".data)).noprogress = true := by
  refine ⟨?_, rfl, rfl, rfl⟩
  have hfmt : pyPercentFormat info (mediaRoot ++ "/temp_audio".data ++ "/%(id)s.%(ext)s".data)
      = mediaRoot ++ ("/temp_audio/".data ++ (info.id ++ ('.' :: info.ext))) := by
    have hshape : mediaRoot ++ "/temp_audio".data ++ "/%(id)s.%(ext)s".data
        = (mediaRoot ++ "/temp_audio/".data)
          ++ ('%' :: ('(' :: ('i' :: ('d' :: (')' :: ('s' ::
              ('.' :: ('%' :: ('(' :: ('e' :: ('x' :: ('t' :: (')' :: ('s' :: [])))))))))))))) := by
      simp [List.append_assoc]
    have hconc : ∀ c ∈ ("/temp_audio/".data : PyStr), c ≠ '%' := by decide
    have hpre : ∀ c ∈ mediaRoot ++ "/temp_audio/".data, c ≠ '%' := by
      intro c hc
      rcases List.mem_append.mp hc with hc | hc
      · exact hmr c hc
      · exact hconc c hc
    rw [hshape, pyPercentFormat_passthrough info _ _ hpre, pyPercentFormat_fire_id]
    have hdot : pyPercentFormat info
        ('.' :: ('%' :: ('(' :: ('e' :: ('x' :: ('t' :: (')' :: ('s' :: []))))))))
        = '.' :: info.ext := by
      have hstep : ('.' :: ('%' :: ('(' :: ('e' :: ('x' :: ('t' :: (')' :: ('s' :: ([] : PyStr)))))))))
          = ['.'] ++ ('%' :: ('(' :: ('e' :: ('x' :: ('t' :: (')' :: ('s' :: []))))))) := rfl
      rw [hstep, pyPercentFormat_passthrough info _ _ (by decide), pyPercentFormat_fire_ext,
        pyPercentFormat_nil]
      simp
    rw [hdot]
    simp [List.append_assoc]
  have hdl : download_youtube_audio mediaRoot extract_info url
      = .ok (pyPercentFormat info (mediaRoot ++ "/temp_audio".data ++ "/%(id)s.%(ext)s".data)) := by
    simp only [download_youtube_audio, hok, prepare_filename, get_youtube_download_opts]
  rw [hdl, hfmt]

/-- Witness for C9 at a concrete storage root and video. -/
theorem C9_media_fetcher_witness :
    download_youtube_audio ("/app/media".data)
        (fun _ => .ok ⟨"abc123".data, "webm".data⟩) ("https://example.com/watch?v=abc".data)
      = .ok ("/app/media".data ++ ("/temp_audio/".data
          ++ ("abc123".data ++ ('.' :: "webm".data)))) :=
  (C9_media_fetcher ("/app/media".data) (fun _ => .ok ⟨"abc123".data, "webm".data⟩)
      ("https://example.com/watch?v=abc".data) ⟨"abc123".data, "webm".data⟩
      (by decide) rfl).1

/-! ## Claim C8: fence stripping and language tags -/

theorem pyEndsWith_append_fence (y : PyStr) :
    pyEndsWith (y ++ "\n```".data) ("```".data) = true := by
  unfold pyEndsWith
  have h1 : (y ++ "\n```".data).reverse = "```".data ++ ('\n' :: y.reverse) := by
    simp
  have h2 : ("```".data : PyStr).reverse = "```".data := rfl
  rw [h1, h2]
  exact isPrefixOf_append_self _ _

theorem pyDropRight_append_fence (y : PyStr) :
    pyDropRight (y ++ "\n```".data) 3 = y ++ ['\n'] := by
  unfold pyDropRight
  have h1 : (y ++ "\n```".data).reverse
      = '\x60' :: ('\x60' :: ('\x60' :: ('\n' :: y.reverse))) := by
    simp [show ("\n```".data : PyStr) = ['\n', '\x60', '\x60', '\x60'] from rfl]
  rw [h1]
  simp

theorem pyStrip_nl_wrap (S : PyStr) (hS : pyStrip S = S) :
    pyStrip ('\n' :: (S ++ ['\n'])) = S := by
  obtain ⟨dW1, dW2⟩ := pyStrip_parts S hS
  unfold pyStrip
  rw [List.dropWhile_cons_of_pos (by decide)]
  cases S with
  | nil => decide
  | cons s0 S' =>
      have hs0 : pyIsSpace s0 = false := dropWhile_head_false _ _ _ dW1
      rw [List.cons_append, List.dropWhile_cons_of_neg (by simp [hs0])]
      have h1 : ((s0 :: (S' ++ ['\n'])) : PyStr).reverse
          = '\n' :: (s0 :: S').reverse := by
        simp
      rw [h1, List.dropWhile_cons_of_pos (by decide), dW2, List.reverse_reverse]

theorem pyStrip_tag_tail (t0 : Char) (tag' S : PyStr)
    (ht0 : pyIsSpace t0 = false) (hS : pyStrip S = S) (hSne : S ≠ []) :
    pyStrip (((t0 :: tag') ++ ('\n' :: S)) ++ ['\n']) = (t0 :: tag') ++ ('\n' :: S) := by
  obtain ⟨dW1, dW2⟩ := pyStrip_parts S hS
  obtain ⟨s0r, Sr, hSc⟩ : ∃ a l, S.reverse = a :: l := by
    cases hr : S.reverse with
    | nil =>
        have := congrArg List.reverse hr
        simp at this
        exact absurd this hSne
    | cons a l => exact ⟨a, l, rfl⟩
  have hs0r : pyIsSpace s0r = false := by
    rw [hSc] at dW2
    exact dropWhile_head_false _ _ _ dW2
  unfold pyStrip
  have hshape : (((t0 :: tag') ++ ('\n' :: S)) ++ ['\n'])
      = t0 :: ((tag' ++ ('\n' :: S)) ++ ['\n']) := by
    simp
  rw [hshape, List.dropWhile_cons_of_neg (by simp [ht0])]
  have hrev : ((t0 :: ((tag' ++ ('\n' :: S)) ++ ['\n'])) : PyStr).reverse
      = '\n' :: (S.reverse ++ ('\n' :: (tag'.reverse ++ [t0]))) := by
    simp
  rw [hrev, List.dropWhile_cons_of_pos (by decide), hSc, List.cons_append,
    List.dropWhile_cons_of_neg (by simp [hs0r]), ← List.cons_append, ← hSc]
  simp

/-- C8 counterexample: with language tag `python` the stripped result
still begins with the tag text, so it is not the inner text — the claim
as stated (fence removal "independent of language tag") is false. -/
theorem C8_counterexample :
    clean_json_response ("```python\n\x7b\"key\":\"value\"\x7d\n```".data)
        = ("python\n\x7b\"key\":\"value\"\x7d".data)
    ∧ ("python\n\x7b\"key\":\"value\"\x7d".data : PyStr)
        ≠ ("\x7b\"key\":\"value\"\x7d".data : PyStr) :=
  ⟨by decide, by decide⟩

/-- C8 amended: for already-stripped inner text, fencing is removed
fully when the opening fence carries the `json` tag or no tag at all;
for any other language tag only the backtick markers are removed and
the tag text remains at the front of the result, so the stripping is
not independent of the language tag. -/
theorem C8_amended_fence_stripping (S tag : PyStr) (hS : pyStrip S = S) :
    clean_json_response ("```json\n".data ++ (S ++ "\n```".data)) = S
    ∧ clean_json_response ("```\n".data ++ (S ++ "\n```".data)) = S
    ∧ (tag ≠ [] → (∀ c ∈ tag, pyIsSpace c = false) → tag.head? ≠ some '\x60'
        → ("```json".data).isPrefixOf
            ("```".data ++ (tag ++ ('\n' :: (S ++ "\n```".data)))) = false
        → S ≠ []
        → clean_json_response ("```".data ++ (tag ++ ('\n' :: (S ++ "\n```".data))))
              = tag ++ ('\n' :: S)
          ∧ tag ++ ('\n' :: S) ≠ S) := by
  have hends : pyEndsWith ('\n' :: (S ++ "\n```".data)) ("```".data) = true := by
    have hsh : ('\n' :: (S ++ "\n```".data) : PyStr) = ('\n' :: S) ++ "\n```".data := by
      simp
    rw [hsh]
    exact pyEndsWith_append_fence _
  have hdr : pyDropRight ('\n' :: (S ++ "\n```".data)) 3 = '\n' :: (S ++ ['\n']) := by
    have hsh : ('\n' :: (S ++ "\n```".data) : PyStr) = ('\n' :: S) ++ "\n```".data := by
      simp
    rw [hsh, pyDropRight_append_fence]
    simp
  refine ⟨?_, ?_, ?_⟩
  · have hstrip : pyStrip ("```json\n".data ++ (S ++ "\n```".data))
        = "```json\n".data ++ (S ++ "\n```".data) := by
      have hsh : ("```json\n".data ++ (S ++ "\n```".data) : PyStr)
          = '\x60' :: (('\x60' :: ('\x60' :: ('j' :: ('s' :: ('o' :: ('n' :: ('\n' ::
              (S ++ ('\n' :: ('\x60' :: ('\x60' :: ([] : PyStr)))))))))))) ++ ['\x60']) := by
        simp [show ("```json\n".data : PyStr)
            = ['\x60', '\x60', '\x60', 'j', 's', 'o', 'n', '\n'] from rfl,
          show ("\n```".data : PyStr) = ['\n', '\x60', '\x60', '\x60'] from rfl,
          List.append_assoc]
      rw [hsh, pyStrip_wrap _ _ _ (by decide) (by decide), ← hsh]
    have hc1 : ("```json".data).isPrefixOf ("```json\n".data ++ (S ++ "\n```".data)) = true := by
      have hsh : ("```json\n".data ++ (S ++ "\n```".data) : PyStr)
          = "```json".data ++ ('\n' :: (S ++ "\n```".data)) := rfl
      rw [hsh]
      exact isPrefixOf_append_self _ _
    have hdrop7 : (("```json\n".data ++ (S ++ "\n```".data)) : PyStr).drop 7
        = '\n' :: (S ++ "\n```".data) := rfl
    have hc2 : ("```".data).isPrefixOf ('\n' :: (S ++ "\n```".data)) = false := by
      have hsh : ("```".data : PyStr) = '\x60' :: "``".data := rfl
      rw [hsh]
      exact isPrefixOf_cons_false _ _ _ _ (by decide)
    simp only [clean_json_response]
    rw [hstrip, hc1, if_pos (show true = true from rfl), hdrop7, hc2, if_neg (show ¬(false = true) from by decide), hends, if_pos (show true = true from rfl), hdr]
    exact pyStrip_nl_wrap S hS
  · have hstrip : pyStrip ("```\n".data ++ (S ++ "\n```".data))
        = "```\n".data ++ (S ++ "\n```".data) := by
      have hsh : ("```\n".data ++ (S ++ "\n```".data) : PyStr)
          = '\x60' :: (('\x60' :: ('\x60' :: ('\n' ::
              (S ++ ('\n' :: ('\x60' :: ('\x60' :: ([] : PyStr)))))))) ++ ['\x60']) := by
        simp [show ("```\n".data : PyStr) = ['\x60', '\x60', '\x60', '\n'] from rfl,
          show ("\n```".data : PyStr) = ['\n', '\x60', '\x60', '\x60'] from rfl,
          List.append_assoc]
      rw [hsh, pyStrip_wrap _ _ _ (by decide) (by decide), ← hsh]
    have hc1 : ("```json".data).isPrefixOf ("```\n".data ++ (S ++ "\n```".data)) = false := by
      have hsh : ("```\n".data ++ (S ++ "\n```".data) : PyStr)
          = '\x60' :: ('\x60' :: ('\x60' :: ('\n' :: (S ++ "\n```".data)))) := rfl
      rw [hsh, show ("```json".data : PyStr) = ['\x60', '\x60', '\x60', 'j', 's', 'o', 'n'] from rfl]
      simp [List.isPrefixOf]
    have hc2 : ("```".data).isPrefixOf ("```\n".data ++ (S ++ "\n```".data)) = true := by
      have hsh : ("```\n".data ++ (S ++ "\n```".data) : PyStr)
          = "```".data ++ ('\n' :: (S ++ "\n```".data)) := rfl
      rw [hsh]
      exact isPrefixOf_append_self _ _
    have hdrop3 : (("```\n".data ++ (S ++ "\n```".data)) : PyStr).drop 3
        = '\n' :: (S ++ "\n```".data) := rfl
    simp only [clean_json_response]
    rw [hstrip, hc1, if_neg (show ¬(false = true) from by decide), hc2, if_pos (show true = true from rfl), hdrop3, hends, if_pos (show true = true from rfl), hdr]
    exact pyStrip_nl_wrap S hS
  · intro htne hts hhead h4 hSne
    obtain ⟨t0, tag', rfl⟩ : ∃ t0 tag', tag = t0 :: tag' := by
      cases tag with
      | nil => exact absurd rfl htne
      | cons a l => exact ⟨a, l, rfl⟩
    have ht0 : pyIsSpace t0 = false := hts t0 (by simp)
    have hstrip : pyStrip ("```".data ++ ((t0 :: tag') ++ ('\n' :: (S ++ "\n```".data))))
        = "```".data ++ ((t0 :: tag') ++ ('\n' :: (S ++ "\n```".data))) := by
      have hsh : ("```".data ++ ((t0 :: tag') ++ ('\n' :: (S ++ "\n```".data))) : PyStr)
          = '\x60' :: (('\x60' :: ('\x60' :: ((t0 :: tag')
              ++ ('\n' :: (S ++ ('\n' :: ('\x60' :: ('\x60' :: ([] : PyStr))))))))) ++ ['\x60']) := by
        simp [show ("```".data : PyStr) = ['\x60', '\x60', '\x60'] from rfl,
          show ("\n```".data : PyStr) = ['\n', '\x60', '\x60', '\x60'] from rfl,
          List.append_assoc]
      rw [hsh, pyStrip_wrap _ _ _ (by decide) (by decide), ← hsh]
    have hc2 : ("```".data).isPrefixOf
        ("```".data ++ ((t0 :: tag') ++ ('\n' :: (S ++ "\n```".data)))) = true :=
      isPrefixOf_append_self _ _
    have hdrop3 : (("```".data ++ ((t0 :: tag') ++ ('\n' :: (S ++ "\n```".data)))) : PyStr).drop 3
        = (t0 :: tag') ++ ('\n' :: (S ++ "\n```".data)) := rfl
    have hendsc : pyEndsWith ((t0 :: tag') ++ ('\n' :: (S ++ "\n```".data))) ("```".data)
        = true := by
      have hsh : ((t0 :: tag') ++ ('\n' :: (S ++ "\n```".data)) : PyStr)
          = ((t0 :: tag') ++ ('\n' :: S)) ++ "\n```".data := by
        simp
      rw [hsh]
      exact pyEndsWith_append_fence _
    have hdrc : pyDropRight ((t0 :: tag') ++ ('\n' :: (S ++ "\n```".data))) 3
        = ((t0 :: tag') ++ ('\n' :: S)) ++ ['\n'] := by
      have hsh : ((t0 :: tag') ++ ('\n' :: (S ++ "\n```".data)) : PyStr)
          = ((t0 :: tag') ++ ('\n' :: S)) ++ "\n```".data := by
        simp
      rw [hsh, pyDropRight_append_fence]
    refine ⟨?_, ?_⟩
    · simp only [clean_json_response]
      rw [hstrip, h4, if_neg (show ¬(false = true) from by decide), hc2, if_pos (show true = true from rfl), hdrop3, hendsc, if_pos (show true = true from rfl), hdrc]
      exact pyStrip_tag_tail t0 tag' S ht0 hS hSne
    · intro heq
      have hlen := congrArg List.length heq
      simp at hlen
      omega

/-- Witness for C8's amended theorem at the round-trip inner text and
the `python` tag. -/
theorem C8_amended_fence_stripping_witness :
    clean_json_response ("```json\n".data
        ++ ("\x7b\"key\":\"value\"\x7d".data ++ "\n```".data))
      = ("\x7b\"key\":\"value\"\x7d".data : PyStr)
    ∧ clean_json_response ("```".data ++ ("python".data
        ++ ('\n' :: ("\x7b\"key\":\"value\"\x7d".data ++ "\n```".data))))
        = "python".data ++ ('\n' :: "\x7b\"key\":\"value\"\x7d".data) :=
  ⟨(C8_amended_fence_stripping ("\x7b\"key\":\"value\"\x7d".data) ("python".data)
      (by decide)).1,
   ((C8_amended_fence_stripping ("\x7b\"key\":\"value\"\x7d".data) ("python".data)
      (by decide)).2.2 (by decide) (by decide) (by decide) (by decide) (by decide)).1⟩

/-! ## Dict lemmas for the normalizer claims -/

theorem dictGet_set_same (d : List (String × JValue)) (k : String) (v : JValue) :
    dictGet (dictSet d k v) k = some v := by
  induction d with
  | nil => simp [dictSet, dictGet]
  | cons f rest ih =>
      obtain ⟨a, w⟩ := f
      by_cases h : a = k
      · subst h; simp [dictSet, dictGet]
      · simp [dictSet, dictGet, h, ih]

theorem dictGet_set_ne (d : List (String × JValue)) (k k' : String) (v : JValue)
    (h : k' ≠ k) : dictGet (dictSet d k v) k' = dictGet d k' := by
  induction d with
  | nil => simp [dictSet, dictGet, Ne.symm h]
  | cons f rest ih =>
      obtain ⟨a, w⟩ := f
      by_cases ha : a = k
      · subst ha
        simp [dictSet, dictGet, Ne.symm h]
      · by_cases ha' : a = k'
        · subst ha'; simp [dictSet, dictGet, ha]
        · simp [dictSet, dictGet, ha, ha', ih]

theorem dictPop_fst (d : List (String × JValue)) (k : String) :
    (dictPop d k).1 = dictGet d k := by
  induction d with
  | nil => simp [dictPop, dictGet]
  | cons f rest ih =>
      obtain ⟨a, w⟩ := f
      by_cases h : a = k
      · subst h; simp [dictPop, dictGet]
      · simp [dictPop, dictGet, h, ih]

theorem dictGet_pop_ne (d : List (String × JValue)) (k k' : String) (h : k' ≠ k) :
    dictGet (dictPop d k).2 k' = dictGet d k' := by
  induction d with
  | nil => simp [dictPop, dictGet]
  | cons f rest ih =>
      obtain ⟨a, w⟩ := f
      by_cases ha : a = k
      · subst ha; simp [dictPop, dictGet, Ne.symm h]
      · by_cases ha' : a = k'
        · subst ha'; simp [dictPop, dictGet, ha]
        · simp [dictPop, dictGet, ha, ha', ih]

theorem dictHasKey_pop_ne (d : List (String × JValue)) (k k' : String) (h : k' ≠ k) :
    dictHasKey (dictPop d k).2 k' = dictHasKey d k' := by
  induction d with
  | nil => simp [dictPop, dictHasKey]
  | cons f rest ih =>
      obtain ⟨a, w⟩ := f
      by_cases ha : a = k
      · subst ha; simp [dictPop, dictHasKey, Ne.symm h]
      · simp [dictPop, dictHasKey, ha, ih]

theorem dictHasKey_pop_self (d : List (String × JValue)) (k : String)
    (hnd : nodupKeys d = true) : dictHasKey (dictPop d k).2 k = false := by
  induction d with
  | nil => simp [dictPop, dictHasKey]
  | cons f rest ih =>
      obtain ⟨a, w⟩ := f
      simp only [nodupKeys, Bool.and_eq_true, Bool.not_eq_true'] at hnd
      by_cases ha : a = k
      · subst ha; simp [dictPop, hnd.1]
      · simp [dictPop, dictHasKey, ha, ih hnd.2]

theorem dictHasKey_set_same (d : List (String × JValue)) (k : String) (v : JValue) :
    dictHasKey (dictSet d k v) k = true := by
  induction d with
  | nil => simp [dictSet, dictHasKey]
  | cons f rest ih =>
      obtain ⟨a, w⟩ := f
      by_cases ha : a = k
      · subst ha; simp [dictSet, dictHasKey]
      · simp [dictSet, dictHasKey, ha, ih]

theorem dictHasKey_set_ne (d : List (String × JValue)) (k k' : String) (v : JValue)
    (h : k' ≠ k) : dictHasKey (dictSet d k v) k' = dictHasKey d k' := by
  induction d with
  | nil => simp [dictSet, dictHasKey, Ne.symm h]
  | cons f rest ih =>
      obtain ⟨a, w⟩ := f
      by_cases ha : a = k
      · subst ha; simp [dictSet, dictHasKey, Ne.symm h]
      · simp [dictSet, dictHasKey, ha, ih]

theorem dictPop_of_not_hasKey (d : List (String × JValue)) (k : String)
    (h : dictHasKey d k = false) : (dictPop d k).2 = d := by
  induction d with
  | nil => simp [dictPop]
  | cons f rest ih =>
      obtain ⟨a, w⟩ := f
      simp only [dictHasKey, Bool.or_eq_false_iff, decide_eq_false_iff_not] at h
      simp [dictPop, h.1, ih h.2]

theorem nodupKeys_pop (d : List (String × JValue)) (k : String)
    (hnd : nodupKeys d = true) : nodupKeys (dictPop d k).2 = true := by
  induction d with
  | nil => simp [dictPop, nodupKeys]
  | cons f rest ih =>
      obtain ⟨a, w⟩ := f
      simp only [nodupKeys, Bool.and_eq_true, Bool.not_eq_true'] at hnd
      by_cases ha : a = k
      · subst ha; simp [dictPop, hnd.2]
      · simp only [dictPop, ha, if_neg (show ¬(a = k) from ha)]
        simp only [nodupKeys, Bool.and_eq_true, Bool.not_eq_true']
        refine ⟨?_, ih hnd.2⟩
        by_cases hak : k = a
        · subst hak
          exact dictHasKey_pop_self rest k hnd.2
        · rw [dictHasKey_pop_ne rest k a (Ne.symm hak)]
          exact hnd.1

theorem nodupKeys_set (d : List (String × JValue)) (k : String) (v : JValue)
    (hnd : nodupKeys d = true) : nodupKeys (dictSet d k v) = true := by
  induction d with
  | nil => simp [dictSet, nodupKeys, dictHasKey]
  | cons f rest ih =>
      obtain ⟨a, w⟩ := f
      simp only [nodupKeys, Bool.and_eq_true, Bool.not_eq_true'] at hnd
      by_cases ha : a = k
      · subst ha
        simp only [dictSet, if_pos rfl, nodupKeys, Bool.and_eq_true, Bool.not_eq_true']
        exact hnd
      · simp only [dictSet, if_neg ha, nodupKeys, Bool.and_eq_true, Bool.not_eq_true']
        refine ⟨?_, ih hnd.2⟩
        by_cases hak : a = k
        · exact absurd hak ha
        · rw [dictHasKey_set_ne rest k a v hak]
          exact hnd.1

theorem dictSet_of_get (d : List (String × JValue)) (k : String) (v : JValue)
    (h : dictGet d k = some v) : dictSet d k v = d := by
  induction d with
  | nil => simp [dictGet] at h
  | cons f rest ih =>
      obtain ⟨a, w⟩ := f
      by_cases ha : a = k
      · subst ha
        simp only [dictGet, eq_self_iff_true, if_true, Option.some.injEq] at h
        simp [dictSet, h]
      · simp only [dictGet, if_neg ha] at h
        simp [dictSet, ha, ih h]

theorem dictHasKey_get (d : List (String × JValue)) (k : String)
    (h : dictHasKey d k = true) : ∃ v, dictGet d k = some v := by
  induction d with
  | nil => simp [dictHasKey] at h
  | cons f rest ih =>
      obtain ⟨a, w⟩ := f
      by_cases ha : a = k
      · subst ha; exact ⟨w, by simp [dictGet]⟩
      · simp only [dictHasKey, Bool.or_eq_true, decide_eq_true_eq] at h
        rcases h with h | h
        · exact absurd h ha
        · obtain ⟨v, hv⟩ := ih h
          exact ⟨v, by simp [dictGet, ha, hv]⟩

/-! ## Normalizer computation lemmas -/

theorem renameKeyPy_obj_pos (d : List (String × JValue)) (old new : String) (v : JValue)
    (h : dictHasKey d old = true) (hv : dictGet d old = some v) :
    renameKeyPy (.obj d) old new = .ok (.obj (dictSet (dictPop d old).2 new v)) := by
  have h1 : (dictPop d old).1 = some v := by rw [dictPop_fst]; exact hv
  simp [renameKeyPy, pyContains, h, h1]

theorem renameKeyPy_obj_neg (d : List (String × JValue)) (old new : String)
    (h : dictHasKey d old = false) :
    renameKeyPy (.obj d) old new = .ok (.obj d) := by
  simp [renameKeyPy, pyContains, h]

theorem normQ_obj_ok (xd : List (String × JValue)) :
    ∃ yd, normalizeQuestion (.obj xd) = .ok (.obj yd) := by
  have step1 : ∃ d1, renameKeyPy (.obj xd) "question_title" "question" = .ok (.obj d1) := by
    cases h : dictHasKey xd "question_title" with
    | false => exact ⟨xd, renameKeyPy_obj_neg _ _ _ h⟩
    | true =>
        obtain ⟨v, hv⟩ := dictHasKey_get _ _ h
        exact ⟨_, renameKeyPy_obj_pos _ _ _ v h hv⟩
  obtain ⟨d1, hd1⟩ := step1
  have step2 : ∃ d2, renameKeyPy (.obj d1) "question_options" "options" = .ok (.obj d2) := by
    cases h : dictHasKey d1 "question_options" with
    | false => exact ⟨d1, renameKeyPy_obj_neg _ _ _ h⟩
    | true =>
        obtain ⟨v, hv⟩ := dictHasKey_get _ _ h
        exact ⟨_, renameKeyPy_obj_pos _ _ _ v h hv⟩
  obtain ⟨d2, hd2⟩ := step2
  exact ⟨d2, by simp [normalizeQuestion, hd1, hd2]⟩

theorem normQ_obj_props (qd : List (String × JValue)) (hnd : nodupKeys qd = true)
    (ht : dictHasKey qd "question_title" = true)
    (ho : dictHasKey qd "question_options" = true) :
    ∃ qd', normalizeQuestion (.obj qd) = .ok (.obj qd')
      ∧ dictGet qd' "question" = dictGet qd "question_title"
      ∧ dictGet qd' "options" = dictGet qd "question_options"
      ∧ dictHasKey qd' "question_title" = false
      ∧ dictHasKey qd' "question_options" = false
      ∧ dictGet qd' "answer" = dictGet qd "answer" := by
  obtain ⟨vt, hvt⟩ := dictHasKey_get _ _ ht
  have hd1 : renameKeyPy (.obj qd) "question_title" "question"
      = .ok (.obj (dictSet (dictPop qd "question_title").2 "question" vt)) :=
    renameKeyPy_obj_pos _ _ _ vt ht hvt
  set d1 := dictSet (dictPop qd "question_title").2 "question" vt with hd1def
  have hnd1 : nodupKeys d1 = true :=
    nodupKeys_set _ _ _ (nodupKeys_pop _ _ hnd)
  have ho1 : dictHasKey d1 "question_options" = true := by
    rw [hd1def, dictHasKey_set_ne _ _ _ _ (by decide),
      dictHasKey_pop_ne _ _ _ (by decide)]
    exact ho
  obtain ⟨vo, hvo⟩ := dictHasKey_get _ _ ho1
  have hvo0 : dictGet qd "question_options" = some vo := by
    rw [hd1def] at hvo
    rw [dictGet_set_ne _ _ _ _ (by decide), dictGet_pop_ne _ _ _ (by decide)] at hvo
    exact hvo
  have hd2 : renameKeyPy (.obj d1) "question_options" "options"
      = .ok (.obj (dictSet (dictPop d1 "question_options").2 "options" vo)) :=
    renameKeyPy_obj_pos _ _ _ vo ho1 hvo
  set d2 := dictSet (dictPop d1 "question_options").2 "options" vo with hd2def
  refine ⟨d2, ?_, ?_, ?_, ?_, ?_, ?_⟩
  · simp [normalizeQuestion, hd1, hd2]
  · rw [hd2def, dictGet_set_ne _ _ _ _ (by decide),
      dictGet_pop_ne _ _ _ (by decide), hd1def, dictGet_set_same, hvt]
  · rw [hd2def, dictGet_set_same, hvo0]
  · rw [hd2def, dictHasKey_set_ne _ _ _ _ (by decide),
      dictHasKey_pop_ne _ _ _ (by decide), hd1def,
      dictHasKey_set_ne _ _ _ _ (by decide)]
    exact dictHasKey_pop_self _ _ hnd
  · rw [hd2def, dictHasKey_set_ne _ _ _ _ (by decide)]
    exact dictHasKey_pop_self _ _ hnd1
  · rw [hd2def, dictGet_set_ne _ _ _ _ (by decide),
      dictGet_pop_ne _ _ _ (by decide), hd1def,
      dictGet_set_ne _ _ _ _ (by decide), dictGet_pop_ne _ _ _ (by decide)]

theorem normalizeAll_pointwise (qs : List JValue)
    (h : ∀ x ∈ qs, ∃ xd, x = .obj xd) :
    ∃ qs', normalizeAll qs = .ok qs' ∧ qs'.length = qs.length
      ∧ ∀ i (hi : i < qs.length) (hi' : i < qs'.length),
          normalizeQuestion (qs.get ⟨i, hi⟩) = .ok (qs'.get ⟨i, hi'⟩) := by
  induction qs with
  | nil =>
      refine ⟨[], rfl, rfl, ?_⟩
      intro i hi
      simp at hi
  | cons x rest ih =>
      obtain ⟨xd, rfl⟩ := h x (by simp)
      obtain ⟨yd, hy⟩ := normQ_obj_ok xd
      obtain ⟨rest', hr, hlen, hpt⟩ := ih (fun z hz => h z (by simp [hz]))
      refine ⟨.obj yd :: rest', by simp [normalizeAll, hy, hr], by simp [hlen], ?_⟩
      intro i hi hi'
      match i with
      | 0 => simpa using hy
      | Nat.succ j =>
          simp only [List.get_cons_succ]
          exact hpt j (by simpa using hi) (by simpa using hi')

/-! ## Claim C4 -/

/-- C4: for a quiz payload whose questions are objects, the question at
any position that carries both the `question_title` and
`question_options` keys is rewritten by `normalize_question_keys` into an
object whose `question` and `options` keys hold exactly the values the
original keys held, which no longer contains either original key name,
and whose `answer` entry is unchanged; the payload keeps its structure
(same dict with the rewritten questions list written back in place). -/
theorem C4_normalize_renames (d qd : List (String × JValue)) (qs : List JValue) (i : Nat)
    (hq : dictGet d "questions" = some (.arr qs))
    (hobj : ∀ x ∈ qs, ∃ xd, x = .obj xd)
    (hi : i < qs.length) (hqd : qs.get ⟨i, hi⟩ = .obj qd)
    (hnd : nodupKeys qd = true)
    (ht : dictHasKey qd "question_title" = true)
    (ho : dictHasKey qd "question_options" = true) :
    ∃ (qs' : List JValue) (qd' : List (String × JValue)) (hi' : i < qs'.length),
      normalize_question_keys (.obj d) = .ok (.obj (dictSet d "questions" (.arr qs')))
      ∧ qs'.length = qs.length
      ∧ qs'.get ⟨i, hi'⟩ = .obj qd'
      ∧ dictGet qd' "question" = dictGet qd "question_title"
      ∧ dictGet qd' "options" = dictGet qd "question_options"
      ∧ dictHasKey qd' "question_title" = false
      ∧ dictHasKey qd' "question_options" = false
      ∧ dictGet qd' "answer" = dictGet qd "answer" := by
  obtain ⟨qs', hall, hlen, hpt⟩ := normalizeAll_pointwise qs hobj
  obtain ⟨qd', hok, hp1, hp2, hp3, hp4, hp5⟩ := normQ_obj_props qd hnd ht ho
  have hi' : i < qs'.length := by omega
  have hel : qs'.get ⟨i, hi'⟩ = .obj qd' := by
    have := hpt i hi hi'
    rw [hqd, hok] at this
    exact (Except.ok.inj this).symm
  exact ⟨qs', qd', hi', by simp [normalize_question_keys, hq, hall], hlen, hel,
    hp1, hp2, hp3, hp4, hp5⟩

/-- Witness for C4 at a concrete one-question payload. -/
theorem C4_normalize_renames_witness :
    ∃ (qs' : List JValue) (qd' : List (String × JValue)) (h : 0 < qs'.length),
      normalize_question_keys (.obj [("questions", .arr [.obj
          [("question_title", .str "Q1".data),
           ("question_options", .arr [.str "A".data, .str "B".data]),
           ("answer", .str "A".data)]])])
        = .ok (.obj (dictSet [("questions", .arr [.obj
            [("question_title", .str "Q1".data),
             ("question_options", .arr [.str "A".data, .str "B".data]),
             ("answer", .str "A".data)]])] "questions" (.arr qs')))
      ∧ qs'.length = 1
      ∧ qs'.get ⟨0, h⟩ = .obj qd'
      ∧ dictGet qd' "question"
          = dictGet [("question_title", .str "Q1".data),
              ("question_options", .arr [.str "A".data, .str "B".data]),
              ("answer", .str "A".data)] "question_title"
      ∧ dictGet qd' "options"
          = dictGet [("question_title", .str "Q1".data),
              ("question_options", .arr [.str "A".data, .str "B".data]),
              ("answer", .str "A".data)] "question_options"
      ∧ dictHasKey qd' "question_title" = false
      ∧ dictHasKey qd' "question_options" = false
      ∧ dictGet qd' "answer"
          = dictGet [("question_title", .str "Q1".data),
              ("question_options", .arr [.str "A".data, .str "B".data]),
              ("answer", .str "A".data)] "answer" :=
  C4_normalize_renames
    [("questions", .arr [.obj
        [("question_title", .str "Q1".data),
         ("question_options", .arr [.str "A".data, .str "B".data]),
         ("answer", .str "A".data)]])]
    [("question_title", .str "Q1".data),
     ("question_options", .arr [.str "A".data, .str "B".data]),
     ("answer", .str "A".data)]
    [.obj [("question_title", .str "Q1".data),
           ("question_options", .arr [.str "A".data, .str "B".data]),
           ("answer", .str "A".data)]]
    0 (by simp [dictGet])
    (by
      intro x hx
      simp only [List.mem_singleton] at hx
      exact ⟨_, hx⟩)
    (by decide) rfl (by decide) (by decide) (by decide)

/-! ## Idempotence of the normalizer -/

theorem normQ_idem (q q' : JValue) (hnd : questionKeysNodup q = true)
    (h : normalizeQuestion q = .ok q') : normalizeQuestion q' = .ok q' := by
  cases q with
  | num n => simp [normalizeQuestion, renameKeyPy, pyContains] at h
  | bool b => simp [normalizeQuestion, renameKeyPy, pyContains] at h
  | null => simp [normalizeQuestion, renameKeyPy, pyContains] at h
  | str s =>
      cases hct : containsSub s ("question_title".data) with
      | true => simp [normalizeQuestion, renameKeyPy, pyContains, hct] at h
      | false =>
          cases hco : containsSub s ("question_options".data) with
          | true => simp [normalizeQuestion, renameKeyPy, pyContains, hct, hco] at h
          | false =>
              have hq' : q' = .str s := by
                simp [normalizeQuestion, renameKeyPy, pyContains, hct, hco] at h
                exact h.symm
              subst hq'
              simp [normalizeQuestion, renameKeyPy, pyContains, hct, hco]
  | arr xs =>
      cases hct : xs.any (isStrEq "question_title") with
      | true => simp [normalizeQuestion, renameKeyPy, pyContains, hct] at h
      | false =>
          cases hco : xs.any (isStrEq "question_options") with
          | true => simp [normalizeQuestion, renameKeyPy, pyContains, hct, hco] at h
          | false =>
              have hq' : q' = .arr xs := by
                simp [normalizeQuestion, renameKeyPy, pyContains, hct, hco] at h
                exact h.symm
              subst hq'
              simp [normalizeQuestion, renameKeyPy, pyContains, hct, hco]
  | obj d =>
      simp only [questionKeysNodup] at hnd
      by_cases ht : dictHasKey d "question_title" = true
      · obtain ⟨vt, hvt⟩ := dictHasKey_get _ _ ht
        have hd1 := renameKeyPy_obj_pos d "question_title" "question" vt ht hvt
        set d1 := dictSet (dictPop d "question_title").2 "question" vt with hd1def
        have hnd1 : nodupKeys d1 = true := nodupKeys_set _ _ _ (nodupKeys_pop _ _ hnd)
        have ht1 : dictHasKey d1 "question_title" = false := by
          rw [hd1def, dictHasKey_set_ne _ _ _ _ (by decide)]
          exact dictHasKey_pop_self _ _ hnd
        by_cases ho1 : dictHasKey d1 "question_options" = true
        · obtain ⟨vo, hvo⟩ := dictHasKey_get _ _ ho1
          have hd2 := renameKeyPy_obj_pos d1 "question_options" "options" vo ho1 hvo
          set d2 := dictSet (dictPop d1 "question_options").2 "options" vo with hd2def
          have hq' : q' = .obj d2 := by
            simp [normalizeQuestion, hd1, hd2] at h
            exact h.symm
          subst hq'
          have ht2 : dictHasKey d2 "question_title" = false := by
            rw [hd2def, dictHasKey_set_ne _ _ _ _ (by decide),
              dictHasKey_pop_ne _ _ _ (by decide)]
            exact ht1
          have ho2 : dictHasKey d2 "question_options" = false := by
            rw [hd2def, dictHasKey_set_ne _ _ _ _ (by decide)]
            exact dictHasKey_pop_self _ _ hnd1
          simp [normalizeQuestion, renameKeyPy_obj_neg _ _ _ ht2,
            renameKeyPy_obj_neg _ _ _ ho2]
        · have ho1f : dictHasKey d1 "question_options" = false := by simpa using ho1
          have hq' : q' = .obj d1 := by
            simp [normalizeQuestion, hd1, renameKeyPy_obj_neg _ _ _ ho1f] at h
            exact h.symm
          subst hq'
          simp [normalizeQuestion, renameKeyPy_obj_neg _ _ _ ht1,
            renameKeyPy_obj_neg _ _ _ ho1f]
      · have htf : dictHasKey d "question_title" = false := by simpa using ht
        have hd1 := renameKeyPy_obj_neg d "question_title" "question" htf
        by_cases ho : dictHasKey d "question_options" = true
        · obtain ⟨vo, hvo⟩ := dictHasKey_get _ _ ho
          have hd2 := renameKeyPy_obj_pos d "question_options" "options" vo ho hvo
          set d2 := dictSet (dictPop d "question_options").2 "options" vo with hd2def
          have hq' : q' = .obj d2 := by
            simp [normalizeQuestion, hd1, hd2] at h
            exact h.symm
          subst hq'
          have ht2 : dictHasKey d2 "question_title" = false := by
            rw [hd2def, dictHasKey_set_ne _ _ _ _ (by decide),
              dictHasKey_pop_ne _ _ _ (by decide)]
            exact htf
          have ho2 : dictHasKey d2 "question_options" = false := by
            rw [hd2def, dictHasKey_set_ne _ _ _ _ (by decide)]
            exact dictHasKey_pop_self _ _ hnd
          simp [normalizeQuestion, renameKeyPy_obj_neg _ _ _ ht2,
            renameKeyPy_obj_neg _ _ _ ho2]
        · have hof : dictHasKey d "question_options" = false := by simpa using ho
          have hq' : q' = .obj d := by
            simp [normalizeQuestion, hd1, renameKeyPy_obj_neg _ _ _ hof] at h
            exact h.symm
          subst hq'
          simp [normalizeQuestion, renameKeyPy_obj_neg _ _ _ htf,
            renameKeyPy_obj_neg _ _ _ hof]

theorem normalizeAll_idem (qs qs' : List JValue)
    (h : ∀ x ∈ qs, questionKeysNodup x = true)
    (hall : normalizeAll qs = .ok qs') : normalizeAll qs' = .ok qs' := by
  induction qs generalizing qs' with
  | nil =>
      simp only [normalizeAll, Except.ok.injEq] at hall
      subst hall
      rfl
  | cons x rest ih =>
      cases hx : normalizeQuestion x with
      | error e => simp [normalizeAll, hx] at hall
      | ok y =>
          cases hr : normalizeAll rest with
          | error e => simp [normalizeAll, hx, hr] at hall
          | ok rest' =>
              have hq : qs' = y :: rest' := by
                simp [normalizeAll, hx, hr] at hall
                exact hall.symm
              subst hq
              have hy := normQ_idem x y (h x (by simp)) hx
              have hrest := ih rest' (fun z hz => h z (by simp [hz])) hr
              simp [normalizeAll, hy, hrest]

theorem normalizeAll_of_persistence (qs : List JValue)
    (h : ∀ x ∈ qs, usesPersistenceKeys x = true) : normalizeAll qs = .ok qs := by
  induction qs with
  | nil => rfl
  | cons x rest ih =>
      have hx := h x (by simp)
      obtain ⟨xd, rfl⟩ : ∃ xd, x = .obj xd := by
        cases x with
        | obj d => exact ⟨d, rfl⟩
        | str s => simp [usesPersistenceKeys] at hx
        | num n => simp [usesPersistenceKeys] at hx
        | bool b => simp [usesPersistenceKeys] at hx
        | null => simp [usesPersistenceKeys] at hx
        | arr l => simp [usesPersistenceKeys] at hx
      simp only [usesPersistenceKeys, Bool.and_eq_true, Bool.not_eq_true'] at hx
      simp [normalizeAll, normalizeQuestion, renameKeyPy_obj_neg _ _ _ hx.1,
        renameKeyPy_obj_neg _ _ _ hx.2, ih (fun z hz => h z (by simp [hz]))]

/-! ## Claim C10 -/

/-- C10: `normalize_question_keys` is idempotent on payloads whose
question objects have distinct keys (true of anything `json.loads`
returns): applying it twice equals applying it once; in particular a
payload with no `questions` key, or whose question objects already use
the persistence key names, is returned unchanged. -/
theorem C10_normalize_idempotent (q : JValue) (hwf : quizQuestionsWF q = true) :
    (normalize_question_keys q).bind normalize_question_keys = normalize_question_keys q
    ∧ (∀ d, q = .obj d → dictGet d "questions" = none
        → normalize_question_keys q = .ok q)
    ∧ (∀ d qs, q = .obj d → dictGet d "questions" = some (.arr qs)
        → (∀ x ∈ qs, usesPersistenceKeys x = true)
        → normalize_question_keys q = .ok q) := by
  refine ⟨?_, ?_, ?_⟩
  · cases q with
    | obj d =>
        cases hqs : dictGet d "questions" with
        | none => simp [normalize_question_keys, hqs, Except.bind]
        | some v =>
            cases v with
            | arr qs =>
                have hwf' : ∀ x ∈ qs, questionKeysNodup x = true := by
                  simp only [quizQuestionsWF, hqs] at hwf
                  exact fun x hx => List.all_eq_true.mp hwf x hx
                cases hall : normalizeAll qs with
                | error e => simp [normalize_question_keys, hqs, hall, Except.bind]
                | ok qs' =>
                    have hsecond : normalizeAll qs' = .ok qs' :=
                      normalizeAll_idem qs qs' hwf' hall
                    have hget : dictGet (dictSet d "questions" (.arr qs')) "questions"
                        = some (.arr qs') := dictGet_set_same _ _ _
                    have hset : dictSet (dictSet d "questions" (.arr qs')) "questions" (.arr qs')
                        = dictSet d "questions" (.arr qs') := dictSet_of_get _ _ _ hget
                    simp [normalize_question_keys, hqs, hall, Except.bind, hget,
                      hsecond, hset]
            | str s => simp [normalize_question_keys, hqs, Except.bind]
            | obj d' =>
                cases hb : d'.any (fun f => containsSub f.1.data ("question_title").data
                    || containsSub f.1.data ("question_options").data) with
                | true => simp [normalize_question_keys, hqs, hb, Except.bind]
                | false => simp [normalize_question_keys, hqs, hb, Except.bind]
            | num n => simp [normalize_question_keys, hqs, Except.bind]
            | bool b => simp [normalize_question_keys, hqs, Except.bind]
            | null => simp [normalize_question_keys, hqs, Except.bind]
    | str s => simp [normalize_question_keys, Except.bind]
    | num n => simp [normalize_question_keys, Except.bind]
    | bool b => simp [normalize_question_keys, Except.bind]
    | null => simp [normalize_question_keys, Except.bind]
    | arr xs => simp [normalize_question_keys, Except.bind]
  · intro d hdq hnone
    subst hdq
    simp [normalize_question_keys, hnone]
  · intro d qs hdq hsome hkeys
    subst hdq
    have hall := normalizeAll_of_persistence qs hkeys
    have hset : dictSet d "questions" (.arr qs) = d := dictSet_of_get _ _ _ hsome
    simp [normalize_question_keys, hsome, hall, hset]

/-- Witness for C10 at a concrete payload with an un-normalized
question. -/
theorem C10_normalize_idempotent_witness :
    (normalize_question_keys (.obj [("questions", .arr [.obj
        [("question_title", .str "Q".data), ("answer", .str "A".data)]])])).bind
        normalize_question_keys
      = normalize_question_keys (.obj [("questions", .arr [.obj
        [("question_title", .str "Q".data), ("answer", .str "A".data)]])]) :=
  (C10_normalize_idempotent (.obj [("questions", .arr [.obj
        [("question_title", .str "Q".data), ("answer", .str "A".data)]])])
    (by decide)).1
